import Mathlib

/-!
# Shallow embedding of `runtime/mcentral.go` (Go 1.14 central span cache)

This file models the central free-list (`mcentral`) of the Go 1.14 memory
allocator: the two span lists (`nonempty`/`empty`), the sweep-epoch protocol
on `sweepgen`, and the operations `cacheSpan` (acquire), `uncacheSpan`
(release), `freeSpan` (post-sweep reclaim) and `grow`.

Spans are identified by natural-number ids held in the lists; the span records
themselves live in a total map `spans : Nat → mspan`.  `sweepgen` arithmetic is
the source's `uint32` arithmetic, carried out on `Nat` modulo `2 ^ 32`.
Process-fatal `throw`s are modelled by the `Outcome.fatal` constructor, which
carries the message and the memory state at the instant of termination.

Parts of the runtime that `mcentral.go` calls but that are outside this
repository snapshot (`mspan.sweep` from mgcsweep.go, `mspan.nextFreeIndex`
from mbitmap.go, `mheap_.alloc`) are modelled from the specification; each
such definition says so in its doc comment.  Tracing, `deductSweepCredit`,
the GC pacer hooks and the `allocCache` bit window are omitted: they touch no
state that the verified properties mention.
-/

namespace MCentral

/-- The modulus `2 ^ 32` of the source's `uint32` sweep-generation field. -/
def U32 : Nat := 2 ^ 32

/-- Addition modulo `2 ^ 32`: the source's `sg+1`, `sg+3`. -/
def add32 (a b : Nat) : Nat := (a + b) % U32

/-- Subtraction modulo `2 ^ 32`: the source's `sg-1`, `sg-2`. -/
def sub32 (a b : Nat) : Nat := (a + (U32 - b)) % U32

/-- One `mspan`: the fields of the source's span record that `mcentral.go`
reads or writes.  `allocBits` is the per-slot allocation bitmap
(`true` = allocated), one entry per slot. -/
structure mspan where
  sweepgen : Nat
  allocCount : Nat
  nelems : Nat
  freeindex : Nat
  elemsize : Nat
  needzero : Nat
  allocBits : List Bool
  deriving DecidableEq

/-- Scan `bits` from index `i` for `fuel` steps looking for a `false`
(= free) bit; returns the index found, or `i + fuel` if none. -/
def findFreeFrom (bits : List Bool) : Nat → Nat → Nat
  | i, 0 => i
  | i, fuel + 1 => if bits.getD i true = false then i else findFreeFrom bits (i + 1) fuel

/-- Modelled from the spec: `mspan.nextFreeIndex` lives in mbitmap.go, which is
not part of this repository snapshot.  Per §3 (`freeBitmap`, `scanCursor`) it
returns the index of the next free slot at or after the scan cursor, or
`nelems` when the span has no free slot left. -/
def mspan.nextFreeIndex (s : mspan) : Nat :=
  findFreeFrom s.allocBits s.freeindex (s.nelems - s.freeindex)

/-- The state touched by `mcentral.go`: one central cache (its two lists and
`nmalloc`), the heap-wide `sweepgen` and `heap_live`, the span records, the
spans handed back to the page arena (`mheap_.freeSpan`), the per-class span
byte size (`class_to_allocnpages[...] * _PageSize`), and the supply of fresh
spans the page arena (`mheap_.alloc`) would hand out. -/
structure heapState where
  sweepgen : Nat
  heap_live : Int
  nmalloc : Int
  nonempty : List Nat
  empty : List Nat
  spans : Nat → mspan
  arenaFreed : List Nat
  spanBytes : Nat
  fresh : List (Nat × mspan)

/-- Overwrite the record of span `id`. -/
def setSpan (st : heapState) (id : Nat) (s : mspan) : heapState :=
  { st with spans := fun j => if j = id then s else st.spans j }

/-- The source's `s.inList()`: the span is linked into one of the two lists. -/
def inList (st : heapState) (id : Nat) : Prop :=
  id ∈ st.nonempty ∨ id ∈ st.empty

instance (st : heapState) (id : Nat) : Decidable (inList st id) := by
  unfold inList; infer_instance

/-- Result of an operation: normal return carrying the new state and a value,
or a process-fatal `throw` carrying the message and the state at death. -/
inductive Outcome (α : Type) where
  | ok : heapState → α → Outcome α
  | fatal : String → heapState → Outcome α

/-- The memory state an outcome leaves behind (for `fatal`, the state at the
instant the process dies). -/
def Outcome.state : Outcome α → heapState
  | .ok st _ => st
  | .fatal _ st => st

/-- The returned value, `none` if the operation was fatal. -/
def Outcome.val : Outcome α → Option α
  | .ok _ v => some v
  | .fatal _ _ => none

/-- The source's `mcentral.freeSpan` (mcentral.go:246-285), verbatim: fatal on a cached
span (`sweepgen == sg+1 || sweepgen == sg+3`); set `needzero`; if `preserve`,
require the span to be linked, stamp `sweepgen` and report `false`; otherwise
do the `wasempty` move (empty → head of nonempty), stamp `sweepgen`, keep a
still-allocated span and report `false`, or unlink an empty span, hand it to
`mheap_.freeSpan` and report `true`. -/
def freeSpan (st : heapState) (id : Nat) (preserve wasempty : Bool) : Outcome Bool :=
  let s := st.spans id
  let sg := st.sweepgen
  if s.sweepgen = add32 sg 1 ∨ s.sweepgen = add32 sg 3 then
    .fatal "freeSpan given cached span" st
  else
    let s1 := { s with needzero := 1 }
    let st1 := setSpan st id s1
    if preserve then
      if inList st1 id then
        .ok (setSpan st1 id { s1 with sweepgen := sg }) false
      else
        .fatal "cannot preserve unlinked span" st1
    else
      let st2 := if wasempty then
          { st1 with empty := st1.empty.erase id, nonempty := id :: st1.nonempty }
        else st1
      let st3 := setSpan st2 id { s1 with sweepgen := sg }
      if s.allocCount ≠ 0 then
        .ok st3 false
      else
        let st4 := { st3 with nonempty := st3.nonempty.erase id }
        .ok { st4 with arenaFreed := st4.arenaFreed ++ [id] } true

/-- Modelled from the spec: `mspan.sweep` lives in mgcsweep.go, which is not
part of this repository snapshot.  Per §4.4/§4.5 and the glossary, sweeping
rescans the span's slots against the collector's mark results (`marks`):
the allocation bitmap becomes the mark bitmap, the allocated count is recounted
from it, the scan cursor resets to the start, and the post-sweep central-cache
bookkeeping is done by `freeSpan`, with `wasempty` recording whether the span
had no free slot before the sweep.  Sweeping touches no heap-wide byte
statistics. -/
def sweep (st : heapState) (id : Nat) (preserve : Bool) (marks : List Bool) : Outcome Bool :=
  let s := st.spans id
  let wasempty := s.nextFreeIndex = s.nelems
  let s1 := { s with allocBits := marks, allocCount := marks.count true, freeindex := 0 }
  freeSpan (setSpan st id s1) id preserve wasempty

/-- The source's `mcentral.uncacheSpan` up to, but not including, the deferred
`s.sweep(false)` call (mcentral.go:187-229): fatal when `allocCount == 0`;
`stale := s.sweepgen == sg+1`; store `sg-1` (stale) or `sg`; when the span has
free slots, give back the `nmalloc` credit, move the span from `empty` to the
head of `nonempty`, and (only when not stale) undo the conservative
`heap_live` count of the unallocated slots.  The returned value is `stale`. -/
def uncacheSpanCore (st : heapState) (id : Nat) : Outcome Bool :=
  let s := st.spans id
  if s.allocCount = 0 then
    .fatal "uncaching span but s.allocCount == 0" st
  else
    let sg := st.sweepgen
    let stale := s.sweepgen = add32 sg 1
    let st1 := setSpan st id { s with sweepgen := if stale then sub32 sg 1 else sg }
    let n : Int := (s.nelems : Int) - (s.allocCount : Int)
    let st2 :=
      if 0 < n then
        let st2 := { st1 with
          nmalloc := st1.nmalloc - n,
          empty := st1.empty.erase id,
          nonempty := id :: st1.nonempty }
        if ¬stale then { st2 with heap_live := st2.heap_live - n * (s.elemsize : Int) }
        else st2
      else st1
    .ok st2 stale

/-- The source's `mcentral.uncacheSpan` (mcentral.go:187-236): the core above followed, for
a stale span only, by the deferred `s.sweep(false)` once the span is in the
right list. -/
def uncacheSpan (st : heapState) (id : Nat) (marks : List Bool) : Outcome Unit :=
  match uncacheSpanCore st id with
  | .fatal m stf => .fatal m stf
  | .ok st1 stale =>
    if stale then
      match sweep st1 id false marks with
      | .fatal m stf => .fatal m stf
      | .ok st2 _ => .ok st2 ()
    else .ok st1 ()

/-- The source's CAS on `s.sweepgen` (`atomic.Cas(&s.sweepgen, old, new)`):
reports success and the updated span. -/
def cas (s : mspan) (below new : Nat) : Bool × mspan :=
  if s.sweepgen = below then (true, { s with sweepgen := new }) else (false, s)

/-- A run of `n` successive CAS attempts on the same span (the sequentially consistent
interleaving of `n` racing claimants); returns how many attempts succeeded. -/
def casAttempts (below new : Nat) : Nat → mspan → Nat
  | 0, _ => 0
  | n + 1, s =>
    let r := cas s below new
    (if r.1 then 1 else 0) + casAttempts below new n r.2

/-- The first loop of `cacheSpan` (mcentral.go:80-97) as a pure scan of the
`nonempty` list: the first span whose `sweepgen` is `sg-2` is claimed
(`true` = needs sweeping), spans at `sg-1` are skipped (being swept by the
background sweeper), any other span is taken as is (`false`). -/
def scanNonempty (st : heapState) : List Nat → Option (Nat × Bool)
  | [] => none
  | id :: rest =>
    let s := st.spans id
    if s.sweepgen = sub32 st.sweepgen 2 then some (id, true)
    else if s.sweepgen = sub32 st.sweepgen 1 then scanNonempty st rest
    else some (id, false)

/-- The second loop of `cacheSpan` (mcentral.go:103-129) as a pure scan of the
`empty` list: the first span at `sg-2` is claimed for sweeping; spans at
`sg-1` are skipped; the first already-swept span stops the scan (`break`),
since all later entries are swept or being swept. -/
def scanEmpty (st : heapState) : List Nat → Option Nat
  | [] => none
  | id :: rest =>
    let s := st.spans id
    if s.sweepgen = sub32 st.sweepgen 2 then some id
    else if s.sweepgen = sub32 st.sweepgen 1 then scanEmpty st rest
    else none

/-- The `havespan` tail of `cacheSpan` (mcentral.go:153-183): fatal if the
span has no free slot (`n == 0 || freeindex == nelems || allocCount ==
nelems`); otherwise credit `nmalloc` with the span's free slots and
`heap_live` with the whole span's bytes less those already counted live.
(The `allocCache` refill is bitmap-cache state not modelled here.) -/
def havespan (st : heapState) (id : Nat) : Outcome (Option Nat) :=
  let s := st.spans id
  let n : Int := (s.nelems : Int) - (s.allocCount : Int)
  if n = 0 ∨ s.freeindex = s.nelems ∨ s.allocCount = s.nelems then
    .fatal "span has no free objects" st
  else
    let usedBytes : Int := (s.allocCount : Int) * (s.elemsize : Int)
    .ok { st with
      nmalloc := st.nmalloc + n,
      heap_live := st.heap_live + (st.spanBytes : Int) - usedBytes } (some id)

/-- The source's `mcentral.cacheSpan` (mcentral.go:60-184).  `marksOf` supplies the
collector's mark bitmap for each span that gets swept along the way; `fuel`
bounds the `goto retry` loop (`none` = fuel ran out, which no real execution
hits).  The inner value is `some id` for a returned span, `none` for the
source's `nil` (arena exhausted).  In the sequential model the
`sweepgen == sg-2` test and its CAS always succeed together, so a claim is
the `sg-1` store followed by the list moves and the sweep; `grow`
(mcentral.go:292-310) is the pop of the next fresh span the arena supplies. -/
def cacheSpan (marksOf : Nat → List Bool) : Nat → heapState → Option (Outcome (Option Nat))
  | 0, _ => none
  | fuel + 1, st =>
    match scanNonempty st st.nonempty with
    | some (id, needsweep) =>
      if needsweep then
        let stA := setSpan st id { st.spans id with sweepgen := sub32 st.sweepgen 1 }
        let stB := { stA with nonempty := stA.nonempty.erase id, empty := stA.empty ++ [id] }
        match sweep stB id true (marksOf id) with
        | .fatal m stf => some (.fatal m stf)
        | .ok stC _ => some (havespan stC id)
      else
        let stB := { st with nonempty := st.nonempty.erase id, empty := st.empty ++ [id] }
        some (havespan stB id)
    | none =>
      match scanEmpty st st.empty with
      | some id =>
        let stA := setSpan st id { st.spans id with sweepgen := sub32 st.sweepgen 1 }
        let stB := { stA with empty := (stA.empty.erase id) ++ [id] }
        match sweep stB id true (marksOf id) with
        | .fatal m stf => some (.fatal m stf)
        | .ok stC _ =>
          let s := stC.spans id
          if s.nextFreeIndex ≠ s.nelems then
            some (havespan (setSpan stC id { s with freeindex := s.nextFreeIndex }) id)
          else
            cacheSpan marksOf fuel stC
      | none =>
        match st.fresh with
        | [] => some (.ok st none)
        | (id, s0) :: restFresh =>
          let stA := { st with
            fresh := restFresh,
            spans := fun j => if j = id then s0 else st.spans j,
            empty := st.empty ++ [id] }
          some (havespan stA id)

/-- Did `cacheSpan` return an actual span? -/
def retSome : Option (Outcome (Option Nat)) → Bool
  | some (.ok _ (some _)) => true
  | _ => false

/-- The state a `cacheSpan` run leaves behind (`d` if the fuel ran out). -/
def retState (d : heapState) : Option (Outcome (Option Nat)) → heapState
  | some o => o.state
  | none => d

/-- The id of the span a `cacheSpan` run returned (0 if none). -/
def retId : Option (Outcome (Option Nat)) → Nat
  | some (.ok _ (some i)) => i
  | _ => 0

/-- The record of the span a `cacheSpan` run returned. -/
def retSpan (d : heapState) (r : Option (Outcome (Option Nat))) : mspan :=
  (retState d r).spans (retId r)

/-! ## Concrete test states -/

/-- A swept span: 3 slots of 3 bytes, one allocated, cursor at 1. -/
def spanA : mspan :=
  { sweepgen := 4, allocCount := 1, nelems := 3, freeindex := 1,
    elemsize := 3, needzero := 0, allocBits := [true, false, false] }

/-- A swept, fully allocated span: 3 slots, all allocated, cursor exhausted. -/
def spanFull : mspan :=
  { sweepgen := 4, allocCount := 3, nelems := 3, freeindex := 3,
    elemsize := 3, needzero := 0, allocBits := [true, true, true] }

/-- A stale cached span (`sweepgen = sg + 1`). -/
def spanStale : mspan :=
  { sweepgen := 5, allocCount := 2, nelems := 3, freeindex := 3,
    elemsize := 3, needzero := 0, allocBits := [true, true, false] }

/-- Central cache holding `spanA` in `nonempty`; global epoch 4; the span
byte size 10 does not divide into 3-byte slots (tail waste 1). -/
def exAcq : heapState :=
  { sweepgen := 4, heap_live := 0, nmalloc := 0, nonempty := [0], empty := [],
    spans := fun _ => spanA, arenaFreed := [], spanBytes := 10, fresh := [] }

/-- Central cache holding the fully allocated `spanFull` in `empty`. -/
def exFull : heapState :=
  { sweepgen := 4, heap_live := 100, nmalloc := 7, nonempty := [], empty := [0],
    spans := fun _ => spanFull, arenaFreed := [], spanBytes := 10, fresh := [] }

/-- Central cache holding the stale cached `spanStale` in `empty`. -/
def exStale : heapState :=
  { sweepgen := 4, heap_live := 100, nmalloc := 7, nonempty := [], empty := [0],
    spans := fun _ => spanStale, arenaFreed := [], spanBytes := 10, fresh := [] }

/-- A swept, part-filled span: 2 of 3 slots allocated. -/
def spanPart : mspan :=
  { sweepgen := 4, allocCount := 2, nelems := 3, freeindex := 2,
    elemsize := 3, needzero := 0, allocBits := [true, true, false] }

/-- Central cache holding `spanPart` in `empty`. -/
def exPart : heapState :=
  { sweepgen := 4, heap_live := 50, nmalloc := 5, nonempty := [], empty := [0],
    spans := fun _ => spanPart, arenaFreed := [], spanBytes := 10, fresh := [] }

/-- A swept empty-list span with zero allocations, ready for reclaim. -/
def spanZero : mspan :=
  { sweepgen := 2, allocCount := 0, nelems := 3, freeindex := 0,
    elemsize := 3, needzero := 0, allocBits := [false, false, false] }

/-- Central cache holding `spanZero` in `empty`. -/
def exZero : heapState :=
  { sweepgen := 4, heap_live := 100, nmalloc := 7, nonempty := [1], empty := [0],
    spans := fun _ => spanZero, arenaFreed := [], spanBytes := 10, fresh := [] }

/-! ## Arithmetic facts about the `uint32` epoch encoding -/

lemma two_lt_U32 : 2 < U32 := by unfold U32; norm_num

lemma mod_succ_ne (a m : Nat) (hm : 1 < m) : a % m ≠ (a + 1) % m := by
  intro h
  have h' : a ≡ a + 1 [MOD m] := h
  have h2 : m ∣ a + 1 - a := (Nat.modEq_iff_dvd' (Nat.le_succ a)).1 h'
  have h3 : m ∣ 1 := by simpa using h2
  have := Nat.le_of_dvd one_pos h3
  omega

lemma addsub_mod_ne (a k m : Nat) (h0 : 0 < k) (h1 : k < m) (h2 : a < m) :
    (a + (m - k)) % m ≠ a := by
  rcases Nat.lt_or_ge (a + (m - k)) m with h | h
  · rw [Nat.mod_eq_of_lt h]; omega
  · rw [Nat.mod_eq_sub_mod h, Nat.mod_eq_of_lt (by omega)]; omega

lemma add_mod_ne (a k m : Nat) (h0 : 0 < k) (h1 : k < m) (h2 : a < m) :
    (a + k) % m ≠ a := by
  rcases Nat.lt_or_ge (a + k) m with h | h
  · rw [Nat.mod_eq_of_lt h]; omega
  · rw [Nat.mod_eq_sub_mod h, Nat.mod_eq_of_lt (by omega)]; omega

/-- Within a `uint32` epoch window, `sg - k ≠ sg` for the offsets the code
uses. -/
lemma sub32_ne_self (sg k : Nat) (h0 : 0 < k) (h1 : k < U32) (h2 : sg < U32) :
    sub32 sg k ≠ sg :=
  addsub_mod_ne sg k U32 h0 h1 h2

/-- Within a `uint32` epoch window, `sg + k ≠ sg` for the offsets the code
uses. -/
lemma add32_ne_self (sg k : Nat) (h0 : 0 < k) (h1 : k < U32) (h2 : sg < U32) :
    add32 sg k ≠ sg :=
  add_mod_ne sg k U32 h0 h1 h2

/-- The claim value `sg - 1` written by a successful CAS differs from the
eligibility value `sg - 2` it replaces, for every `sg` (uint32 wraparound
included). -/
lemma sub32_two_ne_one (sg : Nat) : sub32 sg 2 ≠ sub32 sg 1 := by
  unfold sub32
  have h : sg + (U32 - 1) = sg + (U32 - 2) + 1 := by
    have := two_lt_U32; omega
  rw [h]
  exact mod_succ_ne _ _ (by have := two_lt_U32; omega)

/-! ## C6: releasing a span with zero allocated slots is fatal -/

/-- C6: calling `uncacheSpan` on a span whose `allocCount` is zero throws
(`"uncaching span but s.allocCount == 0"`) with the state untouched: no list
movement and no counter adjustment happens. -/
theorem uncacheSpan_allocCount_zero_fatal (st : heapState) (id : Nat) (marks : List Bool)
    (h : (st.spans id).allocCount = 0) :
    uncacheSpan st id marks = .fatal "uncaching span but s.allocCount == 0" st := by
  unfold uncacheSpan uncacheSpanCore
  simp [h]

/-- Witness for C6 at a concrete state. -/
theorem uncacheSpan_allocCount_zero_fatal_witness :
    (exZero.spans 0).allocCount = 0 ∧
      uncacheSpan exZero 0 [] = .fatal "uncaching span but s.allocCount == 0" exZero :=
  ⟨by decide, uncacheSpan_allocCount_zero_fatal exZero 0 [] (by decide)⟩

/-! ## C7: reclaiming a cached span is fatal before any state change -/

/-- C7: `freeSpan` on a span whose epoch marks it as cached
(`sweepgen == sg+1` or `sg+3`) throws `"freeSpan given cached span"`; the
state carried at death is the input state, i.e. nothing of the central cache
or the span was modified. -/
theorem freeSpan_cached_fatal (st : heapState) (id : Nat) (p w : Bool)
    (h : (st.spans id).sweepgen = add32 st.sweepgen 1 ∨
         (st.spans id).sweepgen = add32 st.sweepgen 3) :
    freeSpan st id p w = .fatal "freeSpan given cached span" st := by
  unfold freeSpan
  simp [h]

/-- Witness for C7 at a concrete state (`spanStale` is at `sg + 1`). -/
theorem freeSpan_cached_fatal_witness :
    ((exStale.spans 0).sweepgen = add32 exStale.sweepgen 1 ∨
        (exStale.spans 0).sweepgen = add32 exStale.sweepgen 3) ∧
      freeSpan exStale 0 true true = .fatal "freeSpan given cached span" exStale :=
  ⟨by decide, freeSpan_cached_fatal exStale 0 true true (by decide)⟩

/-! ## C10: `freeSpan` always sets `needzero` past the cached-span check -/

/-- C10: every `freeSpan` call that passes the cached-span check leaves the
span's `needzero` flag at 1 — for `preserve = true` calls, for calls that
leave a still-allocated span in its list, and for spans returned to the
arena alike (even an execution that dies on the unlinked-span check has set
the flag first). -/
theorem freeSpan_sets_needzero (st : heapState) (id : Nat) (p w : Bool)
    (h : ¬((st.spans id).sweepgen = add32 st.sweepgen 1 ∨
           (st.spans id).sweepgen = add32 st.sweepgen 3)) :
    ((freeSpan st id p w).state.spans id).needzero = 1 := by
  unfold freeSpan
  simp only [h, if_false]
  split
  · split
    · simp [Outcome.state, setSpan]
    · simp [Outcome.state, setSpan]
  · split
    · simp [Outcome.state, setSpan]
    · simp [Outcome.state, setSpan]

/-- Witness for C10 at a concrete state: a `preserve = true` call that keeps
the span in place still stamps `needzero`. -/
theorem freeSpan_sets_needzero_witness :
    ¬((exZero.spans 0).sweepgen = add32 exZero.sweepgen 1 ∨
        (exZero.spans 0).sweepgen = add32 exZero.sweepgen 3) ∧
      ((freeSpan exZero 0 true true).state.spans 0).needzero = 1 :=
  ⟨by decide, freeSpan_sets_needzero exZero 0 true true (by decide)⟩

/-! ## C2: `freeSpan` return value and placement -/

/-- C2: `freeSpan` reports "returned to arena" exactly when `preserve` is
false and the span has zero allocated slots, and in that case the span is
unlinked from both lists and handed to the page arena exactly once
(appended once to `arenaFreed`).  A `preserve = true` call only stamps the
epoch and reports false, leaving lists and arena untouched; a still-allocated
span is left in place — in `nonempty` after the `wasempty` move, otherwise
with both lists unchanged — and false is reported. -/
theorem freeSpan_return_iff (st : heapState) (id : Nat) (p w : Bool)
    (hnc : ¬((st.spans id).sweepgen = add32 st.sweepgen 1 ∨
             (st.spans id).sweepgen = add32 st.sweepgen 3))
    (hp : p = true → inList st id)
    (hwt : w = true → id ∈ st.empty ∧ id ∉ st.nonempty)
    (hwf : w = false → id ∉ st.empty)
    (hnd : st.nonempty.Nodup) (hnd' : st.empty.Nodup) :
    ((freeSpan st id p w).val = some true ↔
        p = false ∧ (st.spans id).allocCount = 0) ∧
    (p = false ∧ (st.spans id).allocCount = 0 →
      (freeSpan st id p w).state.arenaFreed = st.arenaFreed ++ [id] ∧
      id ∉ (freeSpan st id p w).state.nonempty ∧
      id ∉ (freeSpan st id p w).state.empty) ∧
    (p = true →
      (freeSpan st id p w).val = some false ∧
      (freeSpan st id p w).state.nonempty = st.nonempty ∧
      (freeSpan st id p w).state.empty = st.empty ∧
      (freeSpan st id p w).state.arenaFreed = st.arenaFreed ∧
      ((freeSpan st id p w).state.spans id).sweepgen = st.sweepgen) ∧
    (p = false ∧ (st.spans id).allocCount ≠ 0 →
      (freeSpan st id p w).val = some false ∧
      (freeSpan st id p w).state.arenaFreed = st.arenaFreed ∧
      (w = true → id ∈ (freeSpan st id p w).state.nonempty ∧
        id ∉ (freeSpan st id p w).state.empty) ∧
      (w = false → (freeSpan st id p w).state.nonempty = st.nonempty ∧
        (freeSpan st id p w).state.empty = st.empty)) := by
  unfold freeSpan
  simp only [hnc, if_false]
  cases p with
  | true =>
    have hin : inList st id := hp rfl
    simp only [reduceIte]
    split
    · simp [Outcome.state, Outcome.val, setSpan]
    · next h => exact absurd hin h
  | false =>
    by_cases ha : (st.spans id).allocCount = 0
    · cases w with
      | true =>
        have h1 := (hwt rfl).1
        have h2 := (hwt rfl).2
        simp [ha, Outcome.state, Outcome.val, setSpan, List.erase_cons_head, h2,
          hnd'.not_mem_erase]
      | false =>
        have h1 := hwf rfl
        simp [ha, Outcome.state, Outcome.val, setSpan, hnd.not_mem_erase, h1]
    · cases w with
      | true =>
        have h2 := (hwt rfl).2
        simp [ha, Outcome.state, Outcome.val, setSpan, hnd'.not_mem_erase]
      | false =>
        simp [ha, Outcome.state, Outcome.val, setSpan]

/-- Witness for C2 at a concrete state: `spanZero` (zero allocations, in the
empty list) is handed to the arena. -/
theorem freeSpan_return_iff_witness :
    ((freeSpan exZero 0 false true).val = some true ↔
        false = false ∧ (exZero.spans 0).allocCount = 0) ∧
      (freeSpan exZero 0 false true).state.arenaFreed = exZero.arenaFreed ++ [0] ∧
      0 ∉ (freeSpan exZero 0 false true).state.nonempty ∧
      0 ∉ (freeSpan exZero 0 false true).state.empty := by
  have h := freeSpan_return_iff exZero 0 false true (by decide)
    (by intro h; cases h) (by intro _; exact ⟨by decide, by decide⟩)
    (by intro h; cases h) (by decide) (by decide)
  exact ⟨h.1, h.2.1 ⟨rfl, by decide⟩⟩

/-! ## Preservation lemmas for `freeSpan` and `sweep` -/

/-- The reclaim path `freeSpan` never touches `heap_live`, `nmalloc` or `spanBytes`, and never
touches the span's slot data (`allocCount`, `freeindex`, `allocBits`) — it
writes only `needzero`, `sweepgen`, the lists and the arena hand-off. -/
lemma freeSpan_preserves (st : heapState) (id : Nat) (p w : Bool) :
    (freeSpan st id p w).state.heap_live = st.heap_live ∧
    (freeSpan st id p w).state.nmalloc = st.nmalloc ∧
    (freeSpan st id p w).state.spanBytes = st.spanBytes ∧
    ((freeSpan st id p w).state.spans id).allocCount = (st.spans id).allocCount ∧
    ((freeSpan st id p w).state.spans id).freeindex = (st.spans id).freeindex ∧
    ((freeSpan st id p w).state.spans id).allocBits = (st.spans id).allocBits := by
  unfold freeSpan
  by_cases hc : (st.spans id).sweepgen = add32 st.sweepgen 1 ∨
      (st.spans id).sweepgen = add32 st.sweepgen 3
  · simp [hc, Outcome.state]
  · simp only [hc, if_false]
    split_ifs <;> simp [Outcome.state, setSpan]

/-- Sweeping never touches the heap-wide byte and allocation statistics. -/
lemma sweep_preserves_stats (st : heapState) (id : Nat) (p : Bool) (marks : List Bool) :
    (sweep st id p marks).state.heap_live = st.heap_live ∧
    (sweep st id p marks).state.nmalloc = st.nmalloc ∧
    (sweep st id p marks).state.spanBytes = st.spanBytes := by
  unfold sweep
  exact ⟨(freeSpan_preserves _ id p _).1, (freeSpan_preserves _ id p _).2.1,
    (freeSpan_preserves _ id p _).2.2.1⟩

/-- After `sweep`, the span's slot data is the recount from the mark bitmap. -/
lemma sweep_spans_swept (st : heapState) (id : Nat) (p : Bool) (marks : List Bool) :
    ((sweep st id p marks).state.spans id).allocCount = marks.count true ∧
    ((sweep st id p marks).state.spans id).freeindex = 0 ∧
    ((sweep st id p marks).state.spans id).allocBits = marks := by
  unfold sweep
  refine ⟨?_, ?_, ?_⟩
  · rw [(freeSpan_preserves _ id p _).2.2.2.1]; simp [setSpan]
  · rw [(freeSpan_preserves _ id p _).2.2.2.2.1]; simp [setSpan]
  · rw [(freeSpan_preserves _ id p _).2.2.2.2.2]; simp [setSpan]

/-! ## C3: list movement on release -/

/-- Counterexample to C3 as stated: releasing the fully allocated `spanFull`
(3 of 3 slots allocated, epoch current) does not move it from the empty list
to the nonempty list — it stays in `empty`. -/
theorem uncacheSpan_no_move_counterexample :
    (exFull.spans 0).allocCount ≠ 0 ∧ 0 ∈ exFull.empty ∧
      0 ∉ (uncacheSpan exFull 0 []).state.nonempty ∧
      0 ∈ (uncacheSpan exFull 0 []).state.empty := by decide

/-- C3 amended: on release of a non-stale span, the span is moved from the
empty list to (the head of) the nonempty list exactly when it has at least
one free slot; a fully allocated span is left where it is. -/
theorem uncacheSpan_move_iff (st : heapState) (id : Nat) (marks : List Bool)
    (ha : (st.spans id).allocCount ≠ 0)
    (hst : (st.spans id).sweepgen ≠ add32 st.sweepgen 1) :
    ((st.spans id).allocCount < (st.spans id).nelems →
      (uncacheSpan st id marks).state.nonempty = id :: st.nonempty ∧
      (uncacheSpan st id marks).state.empty = st.empty.erase id) ∧
    ((st.spans id).nelems ≤ (st.spans id).allocCount →
      (uncacheSpan st id marks).state.nonempty = st.nonempty ∧
      (uncacheSpan st id marks).state.empty = st.empty) := by
  constructor
  · intro hlt
    have hn : (0 : Int) < ((st.spans id).nelems : Int) - ((st.spans id).allocCount : Int) := by
      omega
    unfold uncacheSpan uncacheSpanCore
    simp [ha, hst, hn, Outcome.state, setSpan]
  · intro hge
    have hn : ¬((0 : Int) < ((st.spans id).nelems : Int) - ((st.spans id).allocCount : Int)) := by
      omega
    unfold uncacheSpan uncacheSpanCore
    simp [ha, hst, hn, Outcome.state, setSpan]

/-- Witness for the amended C3 at a concrete state: `spanPart` (2 of 3 slots
allocated) is moved from `empty` to the head of `nonempty`. -/
theorem uncacheSpan_move_iff_witness :
    (exPart.spans 0).allocCount ≠ 0 ∧
      (uncacheSpan exPart 0 []).state.nonempty = 0 :: exPart.nonempty ∧
      (uncacheSpan exPart 0 []).state.empty = exPart.empty.erase 0 :=
  ⟨by decide, (uncacheSpan_move_iff exPart 0 [] (by decide) (by decide)).1 (by decide)⟩

/-! ## C4: staleness on release — deferred sweep and live-byte accounting -/

/-- The state `uncacheSpan` leaves behind, phrased through its two stages. -/
lemma uncacheSpan_state_eq (st : heapState) (id : Nat) (marks : List Bool) :
    (uncacheSpan st id marks).state =
      match uncacheSpanCore st id with
      | .fatal _ stf => stf
      | .ok st1 stale =>
        if stale then (sweep st1 id false marks).state else st1 := by
  unfold uncacheSpan
  cases h : uncacheSpanCore st id with
  | fatal m stf => simp [Outcome.state]
  | ok st1 stale =>
    cases stale with
    | false => simp [Outcome.state]
    | true => cases hsw : sweep st1 id false marks <;> simp [hsw, Outcome.state]

/-- C4: on release, exactly a stale span (`sweepgen = sg + 1`) is swept by the
releasing call itself — after the list operations, its slot data is the
recount from the collector's marks — and in exactly that stale case the
live-byte counter is left untouched; a non-stale span is not swept (its
record changes only by the `sweepgen` stamp) and the live-byte counter drops
by `(nelems - allocCount) * elemsize`. -/
theorem uncacheSpan_stale_iff_sweep (st : heapState) (id : Nat) (marks : List Bool)
    (ha : (st.spans id).allocCount ≠ 0)
    (hle : (st.spans id).allocCount ≤ (st.spans id).nelems) :
    ((st.spans id).sweepgen = add32 st.sweepgen 1 →
      (uncacheSpan st id marks).state.heap_live = st.heap_live ∧
      ((uncacheSpan st id marks).state.spans id).allocCount = marks.count true ∧
      ((uncacheSpan st id marks).state.spans id).freeindex = 0 ∧
      ((uncacheSpan st id marks).state.spans id).allocBits = marks) ∧
    ((st.spans id).sweepgen ≠ add32 st.sweepgen 1 →
      (uncacheSpan st id marks).state.heap_live =
        st.heap_live -
          (((st.spans id).nelems : Int) - ((st.spans id).allocCount : Int)) *
            ((st.spans id).elemsize : Int) ∧
      (uncacheSpan st id marks).state.spans id =
        { st.spans id with sweepgen := st.sweepgen }) := by
  rw [uncacheSpan_state_eq]
  constructor
  · intro hs
    by_cases hn : (0 : Int) < ((st.spans id).nelems : Int) - ((st.spans id).allocCount : Int)
    all_goals
      unfold uncacheSpanCore
      simp [ha, hs, hn]
      exact ⟨(sweep_preserves_stats _ id false marks).1,
        (sweep_spans_swept _ id false marks).1,
        (sweep_spans_swept _ id false marks).2.1,
        (sweep_spans_swept _ id false marks).2.2⟩
  · intro hs
    by_cases hn : (0 : Int) < ((st.spans id).nelems : Int) - ((st.spans id).allocCount : Int)
    · unfold uncacheSpanCore
      simp [ha, hs, hn, setSpan]
    · have hz : ((st.spans id).nelems : Int) - ((st.spans id).allocCount : Int) = 0 := by
        omega
      unfold uncacheSpanCore
      simp [ha, hs, hn, hz, setSpan]

/-- Witness for C4 at a concrete state: releasing the stale `spanStale`
sweeps it in place (slot data re-derived from the marks) and leaves
`heap_live` untouched. -/
theorem uncacheSpan_stale_iff_sweep_witness :
    (exStale.spans 0).sweepgen = add32 exStale.sweepgen 1 ∧
      (uncacheSpan exStale 0 [true, false, false]).state.heap_live = exStale.heap_live ∧
      ((uncacheSpan exStale 0 [true, false, false]).state.spans 0).allocCount =
        [true, false, false].count true := by
  have h := uncacheSpan_stale_iff_sweep exStale 0 [true, false, false]
    (by decide) (by decide)
  have h2 := h.1 (by decide)
  exact ⟨by decide, h2.1, h2.2.1⟩

/-! ## C9: the sweep claim is one CAS; losers just keep scanning -/

/-- Once a span's epoch is no longer the eligibility value, every further CAS
attempt against that value fails and leaves the span unchanged. -/
lemma casAttempts_fail (below new : Nat) :
    ∀ (n : Nat) (s : mspan), s.sweepgen ≠ below → casAttempts below new n s = 0 := by
  intro n
  induction n with
  | zero => intro s _; rfl
  | succ k ih =>
    intro s h
    unfold casAttempts cas
    simp [h]
    exact ih s h

/-- C9: claiming a span for sweep is the single CAS of its epoch from `sg-2`
to `sg-1`; among `N ≥ 1` racing claim attempts on a stale span exactly one
succeeds, and a loser does not block or retry on that span — both scan loops
simply move past a span whose epoch shows it claimed (`sg-1`). -/
theorem sweepClaim_exactly_one (sg N : Nat) (s : mspan)
    (hinit : s.sweepgen = sub32 sg 2) (hN : 1 ≤ N) :
    casAttempts (sub32 sg 2) (sub32 sg 1) N s = 1 ∧
    (∀ (st : heapState) (id : Nat) (rest : List Nat),
      (st.spans id).sweepgen = sub32 st.sweepgen 1 →
      scanNonempty st (id :: rest) = scanNonempty st rest) ∧
    (∀ (st : heapState) (id : Nat) (rest : List Nat),
      (st.spans id).sweepgen = sub32 st.sweepgen 1 →
      scanEmpty st (id :: rest) = scanEmpty st rest) := by
  refine ⟨?_, ?_, ?_⟩
  · obtain ⟨M, rfl⟩ : ∃ M, N = M + 1 := ⟨N - 1, by omega⟩
    have hne : ({ s with sweepgen := sub32 sg 1 } : mspan).sweepgen ≠ sub32 sg 2 :=
      (sub32_two_ne_one sg).symm
    unfold casAttempts cas
    simp only [hinit, if_true, reduceIte]
    rw [casAttempts_fail (sub32 sg 2) (sub32 sg 1) M { s with sweepgen := sub32 sg 1 } hne]
  · intro st id rest h
    conv_lhs => rw [scanNonempty]
    simp [h, (sub32_two_ne_one st.sweepgen).symm]
  · intro st id rest h
    conv_lhs => rw [scanEmpty]
    simp [h, (sub32_two_ne_one st.sweepgen).symm]

/-- Witness for C9 at a concrete input: two racing claim attempts on
`spanZero` (epoch `sg - 2` for `sg = 4`) produce exactly one success. -/
theorem sweepClaim_exactly_one_witness :
    spanZero.sweepgen = sub32 4 2 ∧
      casAttempts (sub32 4 2) (sub32 4 1) 2 spanZero = 1 := by
  have h := sweepClaim_exactly_one 4 2 spanZero (by decide) (by decide)
  exact ⟨by decide, h.1⟩

/-! ## Result extractors for `cacheSpan` runs -/

lemma retSome_iff (r : Option (Outcome (Option Nat))) :
    retSome r = true ↔ ∃ st' id, r = some (.ok st' (some id)) := by
  cases r with
  | none => simp [retSome]
  | some o =>
    cases o with
    | fatal m s => simp [retSome]
    | ok s v => cases v <;> simp [retSome]

/-! ## C5 counterexample: the round trip does not restore `heap_live` -/

/-- Counterexample to C5 as stated: acquiring `spanA` from `exAcq` and
releasing it immediately, with no slot allocated in between, does not restore
the live-byte counter (the span's 3 slots of 3 bytes do not tile its 10-byte
extent, so the optimistic acquire credit and the release correction differ). -/
theorem roundTrip_heapLive_counterexample :
    retSome (cacheSpan (fun _ => []) 1 exAcq) = true ∧
      retId (cacheSpan (fun _ => []) 1 exAcq) = 0 ∧
      (uncacheSpan (retState exAcq (cacheSpan (fun _ => []) 1 exAcq)) 0 []).state.heap_live ≠
        exAcq.heap_live := by decide

/-! ## C8 counterexample: the acquire credit is not the full span size -/

/-- Counterexample to C8 as stated: acquiring `spanA` (1 of its 3 slots
already allocated) raises `heap_live` by `spanBytes - allocCount * elemsize`
= 7, not by the full span size 10. -/
theorem cacheSpan_heapLive_full_counterexample :
    retSome (cacheSpan (fun _ => []) 1 exAcq) = true ∧
      (retState exAcq (cacheSpan (fun _ => []) 1 exAcq)).heap_live ≠
        exAcq.heap_live + (exAcq.spanBytes : Int) := by decide

/-! ## Inversion of the `havespan` tail and factoring of `cacheSpan` -/

@[simp] lemma setSpan_heap_live (st : heapState) (id : Nat) (s : mspan) :
    (setSpan st id s).heap_live = st.heap_live := rfl

@[simp] lemma setSpan_nmalloc (st : heapState) (id : Nat) (s : mspan) :
    (setSpan st id s).nmalloc = st.nmalloc := rfl

@[simp] lemma setSpan_spanBytes (st : heapState) (id : Nat) (s : mspan) :
    (setSpan st id s).spanBytes = st.spanBytes := rfl

@[simp] lemma setSpan_nonempty (st : heapState) (id : Nat) (s : mspan) :
    (setSpan st id s).nonempty = st.nonempty := rfl

@[simp] lemma setSpan_empty (st : heapState) (id : Nat) (s : mspan) :
    (setSpan st id s).empty = st.empty := rfl

/-- A successful `havespan` pins down everything: the value is the span id,
the spans and lists are untouched, the free-slot guard was false, and the two
counters moved by exactly the amounts the code adds. -/
lemma havespan_ok_inv (st st' : heapState) (j : Nat) (v : Option Nat)
    (h : havespan st j = .ok st' v) :
    v = some j ∧ st'.spans = st.spans ∧ st'.spanBytes = st.spanBytes ∧
    ¬(((st.spans j).nelems : Int) - ((st.spans j).allocCount : Int) = 0 ∨
        (st.spans j).freeindex = (st.spans j).nelems ∨
        (st.spans j).allocCount = (st.spans j).nelems) ∧
    st'.nmalloc = st.nmalloc +
      (((st.spans j).nelems : Int) - ((st.spans j).allocCount : Int)) ∧
    st'.heap_live = st.heap_live + (st.spanBytes : Int) -
      ((st.spans j).allocCount : Int) * ((st.spans j).elemsize : Int) := by
  unfold havespan at h
  dsimp only [] at h
  split at h
  · exact Outcome.noConfusion h
  · next hc =>
    injection h with h1 h2
    subst h1
    subst h2
    exact ⟨rfl, rfl, rfl, hc, rfl, rfl⟩

/-- Stats carried through a successful sweep, keyed on the result equation. -/
lemma sweep_ok_stats {st1 stC : heapState} {id : Nat} {p b : Bool} {marks : List Bool}
    (h : sweep st1 id p marks = .ok stC b) :
    stC.heap_live = st1.heap_live ∧ stC.nmalloc = st1.nmalloc ∧
      stC.spanBytes = st1.spanBytes := by
  have h1 := sweep_preserves_stats st1 id p marks
  rw [h] at h1
  exact ⟨h1.1, h1.2.1, h1.2.2⟩

/-- Every span-returning run of `cacheSpan` exits through `havespan`, from an
intermediate state whose `heap_live`, `nmalloc` and `spanBytes` equal the
initial state's (list moves and sweeps touch none of them). -/
lemma cacheSpan_ok_factor (m : Nat → List Bool) :
    ∀ (fuel : Nat) (st st' : heapState) (id : Nat),
      cacheSpan m fuel st = some (.ok st' (some id)) →
      ∃ st₀, havespan st₀ id = .ok st' (some id) ∧
        st₀.heap_live = st.heap_live ∧ st₀.nmalloc = st.nmalloc ∧
        st₀.spanBytes = st.spanBytes := by
  intro fuel
  induction fuel with
  | zero => intro st st' id h; exact Option.noConfusion h
  | succ k ih =>
    intro st st' id h
    unfold cacheSpan at h
    dsimp only [] at h
    split at h
    · -- nonempty scan hit
      next id1 needsweep heq =>
      split at h
      · -- claimed for sweep
        split at h
        · exact Outcome.noConfusion (Option.some.inj h)
        · next stC b hsw =>
          rw [Option.some_inj] at h
          have hv := (havespan_ok_inv _ _ _ _ h).1
          injection hv with hv
          subst hv
          have hstats := sweep_ok_stats hsw
          exact ⟨stC, h, by simp [hstats.1], by simp [hstats.2.1], by simp [hstats.2.2]⟩
      · -- taken as is
        rw [Option.some_inj] at h
        have hv := (havespan_ok_inv _ _ _ _ h).1
        injection hv with hv
        subst hv
        exact ⟨_, h, rfl, rfl, rfl⟩
    · -- empty scan
      split at h
      · next id1 heq2 =>
        split at h
        · exact Outcome.noConfusion (Option.some.inj h)
        · next stC b hsw =>
          split at h
          · -- sweep freed a slot
            rw [Option.some_inj] at h
            have hv := (havespan_ok_inv _ _ _ _ h).1
            injection hv with hv
            subst hv
            have hstats := sweep_ok_stats hsw
            exact ⟨_, h, by simp [hstats.1], by simp [hstats.2.1], by simp [hstats.2.2]⟩
          · -- still full: retried
            obtain ⟨st₀, h0, hl, hm, hb⟩ := ih _ _ _ h
            have hstats := sweep_ok_stats hsw
            exact ⟨st₀, h0, by simp [hl, hstats.1], by simp [hm, hstats.2.1],
              by simp [hb, hstats.2.2]⟩
      · -- grow
        split at h
        · -- arena exhausted: returns nil
          rw [Option.some_inj] at h
          exact Outcome.noConfusion h (fun _ hv => Option.noConfusion hv)
        · -- fresh span
          rw [Option.some_inj] at h
          have hv := (havespan_ok_inv _ _ _ _ h).1
          injection hv with hv
          subst hv
          exact ⟨_, h, rfl, rfl, rfl⟩

/-! ## C1: every span `cacheSpan` returns has a free slot -/

/-- C1: a span actually returned by `cacheSpan` has `allocatedCount <
slotCount` and `freeindex < nelems` at the instant of return (given the
machine-level invariants `allocCount ≤ nelems` and `freeindex ≤ nelems` of
the returned span record); and whenever control reaches the return point with
no free slot, the operation is fatal (`"span has no free objects"`) instead
of returning the span.  This holds on every success path: nonempty-list
hit, swept span, and freshly grown span all exit through the same check. -/
theorem cacheSpan_returns_free_slot (m : Nat → List Bool) (fuel : Nat) (st : heapState)
    (h : retSome (cacheSpan m fuel st) = true)
    (h1 : (retSpan st (cacheSpan m fuel st)).allocCount ≤
      (retSpan st (cacheSpan m fuel st)).nelems)
    (h2 : (retSpan st (cacheSpan m fuel st)).freeindex ≤
      (retSpan st (cacheSpan m fuel st)).nelems) :
    ((retSpan st (cacheSpan m fuel st)).allocCount <
        (retSpan st (cacheSpan m fuel st)).nelems ∧
      (retSpan st (cacheSpan m fuel st)).freeindex <
        (retSpan st (cacheSpan m fuel st)).nelems) ∧
    ∀ (st₀ : heapState) (j : Nat),
      (st₀.spans j).allocCount = (st₀.spans j).nelems ∨
        (st₀.spans j).freeindex = (st₀.spans j).nelems →
      havespan st₀ j = .fatal "span has no free objects" st₀ := by
  constructor
  · obtain ⟨st', id, hr⟩ := (retSome_iff _).1 h
    rw [hr] at h1 h2 ⊢
    obtain ⟨st₀, h0, -, -, -⟩ := cacheSpan_ok_factor m fuel st st' id hr
    obtain ⟨-, hsp, -, hguard, -, -⟩ := havespan_ok_inv _ _ _ _ h0
    push_neg at hguard
    obtain ⟨-, hfree, halloc⟩ := hguard
    have hspan : retSpan st (some (.ok st' (some id))) = st₀.spans id := by
      rw [retSpan, retState, retId, Outcome.state, hsp]
    rw [hspan] at h1 h2 ⊢
    omega
  · intro st₀ j hj
    rcases hj with hj | hj
    · simp [havespan, hj]
    · simp [havespan, hj]

/-- Witness for C1 at a concrete state: the span `cacheSpan` returns out of
`exAcq` has a free slot. -/
theorem cacheSpan_returns_free_slot_witness :
    retSome (cacheSpan (fun _ => []) 1 exAcq) = true ∧
      (retSpan exAcq (cacheSpan (fun _ => []) 1 exAcq)).allocCount <
        (retSpan exAcq (cacheSpan (fun _ => []) 1 exAcq)).nelems := by
  have h := cacheSpan_returns_free_slot (fun _ => []) 1 exAcq
    (by decide) (by decide) (by decide)
  exact ⟨by decide, h.1.1⟩

/-! ## C8 amended: the exact counter deltas of a successful acquire -/

/-- C8 amended: a successful `cacheSpan` raises `heap_live` by the span's
full byte size **less the bytes of its already-allocated slots**
(`spanBytes - allocCount * elemsize`, so that the whole span is counted
live), and raises the cumulative allocation counter by the span's current
number of free slots. -/
theorem cacheSpan_stats_delta (m : Nat → List Bool) (fuel : Nat) (st : heapState)
    (h : retSome (cacheSpan m fuel st) = true) :
    (retState st (cacheSpan m fuel st)).heap_live =
      st.heap_live + (st.spanBytes : Int) -
        ((retSpan st (cacheSpan m fuel st)).allocCount : Int) *
          ((retSpan st (cacheSpan m fuel st)).elemsize : Int) ∧
    (retState st (cacheSpan m fuel st)).nmalloc =
      st.nmalloc + (((retSpan st (cacheSpan m fuel st)).nelems : Int) -
        ((retSpan st (cacheSpan m fuel st)).allocCount : Int)) := by
  obtain ⟨st', id, hr⟩ := (retSome_iff _).1 h
  rw [hr]
  obtain ⟨st₀, h0, hl, hm, hb⟩ := cacheSpan_ok_factor m fuel st st' id hr
  obtain ⟨-, hsp, hby, -, hnm, hhl⟩ := havespan_ok_inv _ _ _ _ h0
  have hspan : retSpan st (some (.ok st' (some id))) = st₀.spans id := by
    rw [retSpan, retState, retId, Outcome.state, hsp]
  rw [hspan]
  constructor
  · show st'.heap_live = _
    rw [hhl, hl, hb]
  · show st'.nmalloc = _
    rw [hnm, hm]

/-- Witness for the amended C8 at a concrete state: acquiring `spanA` raises
`heap_live` by `10 - 1*3 = 7` and `nmalloc` by 2. -/
theorem cacheSpan_stats_delta_witness :
    retSome (cacheSpan (fun _ => []) 1 exAcq) = true ∧
      (retState exAcq (cacheSpan (fun _ => []) 1 exAcq)).heap_live =
        exAcq.heap_live + (exAcq.spanBytes : Int) -
          ((retSpan exAcq (cacheSpan (fun _ => []) 1 exAcq)).allocCount : Int) *
            ((retSpan exAcq (cacheSpan (fun _ => []) 1 exAcq)).elemsize : Int) := by
  have h := cacheSpan_stats_delta (fun _ => []) 1 exAcq (by decide)
  exact ⟨by decide, h.1⟩

/-! ## C5 amended: what the acquire/release round trip really restores -/

/-- C5 amended: acquiring a clean span (head of `nonempty`, epoch current)
that has at least one allocated and one free slot, then immediately releasing
it with no slot allocated in between, restores the free-slot count (the span
record is unchanged), the list membership (both lists exactly), and the
cumulative-allocation counter `nmalloc`; the live-byte counter is *not*
restored exactly — it ends higher by the span's tail waste
`spanBytes - nelems * elemsize` (zero only when the slots tile the span).
A span with no allocated slot cannot round-trip at all: its release is
fatal (`uncacheSpan_allocCount_zero_fatal`). -/
theorem roundTrip_restores (m : Nat → List Bool) (st : heapState) (id : Nat)
    (rest : List Nat) (marks : List Bool)
    (h1 : st.nonempty = id :: rest)
    (h2 : (st.spans id).sweepgen = st.sweepgen)
    (h3 : st.sweepgen < U32)
    (h4 : 1 ≤ (st.spans id).allocCount)
    (h5 : (st.spans id).allocCount < (st.spans id).nelems)
    (h6 : (st.spans id).freeindex < (st.spans id).nelems)
    (h7 : id ∉ st.empty) :
    retSome (cacheSpan m 1 st) = true ∧
    retId (cacheSpan m 1 st) = id ∧
    (uncacheSpan (retState st (cacheSpan m 1 st)) id marks).state.nonempty = st.nonempty ∧
    (uncacheSpan (retState st (cacheSpan m 1 st)) id marks).state.empty = st.empty ∧
    (uncacheSpan (retState st (cacheSpan m 1 st)) id marks).state.nmalloc = st.nmalloc ∧
    (uncacheSpan (retState st (cacheSpan m 1 st)) id marks).state.arenaFreed =
      st.arenaFreed ∧
    (∀ j, (uncacheSpan (retState st (cacheSpan m 1 st)) id marks).state.spans j =
      st.spans j) ∧
    (uncacheSpan (retState st (cacheSpan m 1 st)) id marks).state.heap_live =
      st.heap_live + (st.spanBytes : Int) -
        ((st.spans id).nelems : Int) * ((st.spans id).elemsize : Int) := by
  have hU1 : 1 < U32 := by have := two_lt_U32; omega
  have hne2 : ¬((st.spans id).sweepgen = sub32 st.sweepgen 2) := by
    rw [h2]; exact (sub32_ne_self st.sweepgen 2 (by norm_num) two_lt_U32 h3).symm
  have hne1 : ¬((st.spans id).sweepgen = sub32 st.sweepgen 1) := by
    rw [h2]; exact (sub32_ne_self st.sweepgen 1 one_pos hU1 h3).symm
  have hstale : ¬((st.spans id).sweepgen = add32 st.sweepgen 1) := by
    rw [h2]; exact (add32_ne_self st.sweepgen 1 one_pos hU1 h3).symm
  have ha : (st.spans id).allocCount ≠ 0 := by omega
  have hg1 : ¬(((st.spans id).nelems : Int) - ((st.spans id).allocCount : Int) = 0) := by
    omega
  have hg2 : (st.spans id).freeindex ≠ (st.spans id).nelems := by omega
  have hg3 : (st.spans id).allocCount ≠ (st.spans id).nelems := by omega
  have hn : (0 : Int) < ((st.spans id).nelems : Int) - ((st.spans id).allocCount : Int) := by
    omega
  have hscan : scanNonempty st st.nonempty = some (id, false) := by
    rw [h1]
    unfold scanNonempty
    simp [hne2, hne1]
  have hhs : havespan { st with
        nonempty := st.nonempty.erase id,
        empty := st.empty ++ [id] } id =
      .ok { st with
        nonempty := st.nonempty.erase id,
        empty := st.empty ++ [id],
        nmalloc := st.nmalloc +
          (((st.spans id).nelems : Int) - ((st.spans id).allocCount : Int)),
        heap_live := st.heap_live + (st.spanBytes : Int) -
          ((st.spans id).allocCount : Int) * ((st.spans id).elemsize : Int) }
        (some id) := by
    unfold havespan
    dsimp only []
    rw [if_neg]
    push_neg
    exact ⟨hg1, hg2, hg3⟩
  have hcs : cacheSpan m 1 st =
      some (.ok { st with
        nonempty := st.nonempty.erase id,
        empty := st.empty ++ [id],
        nmalloc := st.nmalloc +
          (((st.spans id).nelems : Int) - ((st.spans id).allocCount : Int)),
        heap_live := st.heap_live + (st.spanBytes : Int) -
          ((st.spans id).allocCount : Int) * ((st.spans id).elemsize : Int) }
        (some id)) := by
    unfold cacheSpan
    rw [hscan]
    dsimp only []
    simp only [Bool.false_eq_true, reduceIte]
    rw [hhs]
  rw [hcs]
  refine ⟨rfl, rfl, ?_, ?_, ?_, ?_, ?_, ?_⟩
  · unfold uncacheSpan uncacheSpanCore
    simp only [retState, Outcome.state]
    simp [ha, hstale, hn, Outcome.state, setSpan, h1, List.erase_cons_head]
  · unfold uncacheSpan uncacheSpanCore
    simp only [retState, Outcome.state]
    simp [ha, hstale, hn, Outcome.state, setSpan]
    rw [List.erase_append_right _ h7]
    simp
  · unfold uncacheSpan uncacheSpanCore
    simp only [retState, Outcome.state]
    simp [ha, hstale, hn, Outcome.state, setSpan]
  · unfold uncacheSpan uncacheSpanCore
    simp only [retState, Outcome.state]
    simp [ha, hstale, hn, Outcome.state, setSpan]
  · intro j
    unfold uncacheSpan uncacheSpanCore
    simp only [retState, Outcome.state]
    by_cases hj : j = id
    · subst hj
      simp [ha, hstale, hn, Outcome.state, setSpan]
      rw [← h2]
    · simp [ha, hstale, hn, Outcome.state, setSpan, hj]
  · unfold uncacheSpan uncacheSpanCore
    simp only [retState, Outcome.state]
    simp [ha, hstale, hn, Outcome.state, setSpan]
    ring

/-- Witness for the amended C5 at a concrete state: round-tripping `spanA`
through `exAcq` restores the lists and `nmalloc`, and leaves `heap_live`
higher by the tail waste `10 - 3*3 = 1`. -/
theorem roundTrip_restores_witness :
    retSome (cacheSpan (fun _ => []) 1 exAcq) = true ∧
      (uncacheSpan (retState exAcq (cacheSpan (fun _ => []) 1 exAcq)) 0 []).state.nonempty =
        exAcq.nonempty ∧
      (uncacheSpan (retState exAcq (cacheSpan (fun _ => []) 1 exAcq)) 0 []).state.nmalloc =
        exAcq.nmalloc ∧
      (uncacheSpan (retState exAcq (cacheSpan (fun _ => []) 1 exAcq)) 0 []).state.heap_live =
        exAcq.heap_live + (exAcq.spanBytes : Int) -
          ((exAcq.spans 0).nelems : Int) * ((exAcq.spans 0).elemsize : Int) := by
  have h := roundTrip_restores (fun _ => []) exAcq 0 [] []
    (by decide) (by decide) (by norm_num [exAcq, U32]) (by decide) (by decide)
    (by decide) (by decide)
  exact ⟨h.1, h.2.2.1, h.2.2.2.2.1, h.2.2.2.2.2.2.2⟩

end MCentral
